import Mathlib

/-!
Verification of the gitstart-contributor-guide scoring core.

Shallow embedding of `src/ai_engine/code_analyzer.py` and
`src/ml_models/issue_classifier.py`:

* Python `float` values are modelled as `ℚ` (the scores involved are
  small decimals; `round(x, 2)` is modelled by round-half-to-even on the
  exact rational, the rounding mode that Python round documents).
* Python strings are modelled as `List Char`.
* `ast.parse` is an external library call; its result is modelled as an
  oracle parameter of type `Option PyTree` (`none` = `SyntaxError`),
  where `PyTree` keeps exactly the node kinds the analyzer inspects
  (`ast.If`, `ast.While`, `ast.For`, `ast.ExceptHandler`,
  `ast.FunctionDef`, `ast.ClassDef`; everything else is `other`).
  `ast.walk` visits every node of the tree once, which `countIf` mirrors.
* The OpenAI chat completion is an external call; the reply text is a
  parameter of the pure pipeline `analyzeCore`.
-/

/-- Node kinds of the Python AST that `code_analyzer.py` distinguishes. -/
inductive NodeKind where
  | ifStmt
  | whileStmt
  | forStmt
  | exceptHandler
  | functionDef
  | classDef
  | other
deriving DecidableEq

/-- A parsed Python structural tree: a node kind plus children. -/
inductive PyTree where
  | node (kind : NodeKind) (children : List PyTree)

/-- Test `isinstance(node, (ast.If, ast.While, ast.For, ast.ExceptHandler))`. -/
def isBranch : NodeKind → Bool
  | .ifStmt => true
  | .whileStmt => true
  | .forStmt => true
  | .exceptHandler => true
  | _ => false

/-- Test `isinstance(n, ast.FunctionDef)`. -/
def isFunctionDef : NodeKind → Bool
  | .functionDef => true
  | _ => false

/-- Test `isinstance(n, ast.ClassDef)`. -/
def isClassDef : NodeKind → Bool
  | .classDef => true
  | _ => false

mutual

/-- Number of nodes of the tree whose kind satisfies `p`; every node of
the tree is inspected exactly once, as `ast.walk` yields each node once. -/
def countIf (p : NodeKind → Bool) : PyTree → Nat
  | .node k cs => (if p k then 1 else 0) + countIfChildren p cs

/-- Sum of `countIf` over a list of sibling subtrees. -/
def countIfChildren (p : NodeKind → Bool) : List PyTree → Nat
  | [] => 0
  | t :: ts => countIf p t + countIfChildren p ts

end

/-- Embeds `_cyclomatic_complexity`: start at 1, then add 1 for every
branch node seen by `ast.walk(tree)`. -/
def cyclomatic_complexity (tree : PyTree) : Nat :=
  1 + countIf isBranch tree

/-- Python split of the code text at newline characters: split at every
newline; a list with no newline yields one piece, so the result always
has (number of newlines) + 1 pieces. -/
def splitLines : List Char → List (List Char)
  | [] => [[]]
  | c :: rest =>
    if c = '\n' then [] :: splitLines rest
    else
      match splitLines rest with
      | [] => [[c]]
      | l :: ls => (c :: l) :: ls

/-- The metrics dict returned by `_static_analysis`. -/
structure StaticMetrics where
  lines_of_code : Nat
  functions : Nat
  classes : Nat
  complexity : Nat
deriving DecidableEq

/-- Embeds `_static_analysis`: on a successful parse, count lines, function
defs, class defs and cyclomatic complexity; on `SyntaxError` (`parse =
none`) return the all-zero record. Total: it never raises. -/
def static_analysis (code : List Char) (parse : Option PyTree) : StaticMetrics :=
  match parse with
  | some tree =>
    { lines_of_code := (splitLines code).length
      functions := countIf isFunctionDef tree
      classes := countIf isClassDef tree
      complexity := cyclomatic_complexity tree }
  | none =>
    { lines_of_code := 0, functions := 0, classes := 0, complexity := 0 }

/-- Round-half-to-even of a rational to an integer (the rounding mode
of Python round). -/
def roundHalfEven (q : ℚ) : ℤ :=
  if q - ⌊q⌋ < 1 / 2 then ⌊q⌋
  else if 1 / 2 < q - ⌊q⌋ then ⌊q⌋ + 1
  else if ⌊q⌋ % 2 = 0 then ⌊q⌋ else ⌊q⌋ + 1

/-- Python `round(x, 2)` on the exact rational value. -/
def pyRound2 (q : ℚ) : ℚ :=
  (roundHalfEven (q * 100) : ℚ) / 100

/-- The static-derived score inside `_calculate_final_score`:
`min(10, complexity*0.5 + classes*0.3 + functions*0.2)`. -/
def static_score (m : StaticMetrics) : ℚ :=
  min 10 ((m.complexity : ℚ) * (5 / 10) + (m.classes : ℚ) * (3 / 10)
    + (m.functions : ℚ) * (2 / 10))

/-- Embeds `_calculate_final_score`: fuse the clamped static score (weight 0.4)
with the AI score (weight 0.6) and round to two decimals. -/
def calculate_final_score (m : StaticMetrics) (ai_score : ℚ) : ℚ :=
  pyRound2 (static_score m * (4 / 10) + ai_score * (6 / 10))

/-- Numeric value of a nonempty ASCII digit string. -/
def natOfDigits (l : List Char) : Nat :=
  l.foldl (fun n c => 10 * n + (c.toNat - 48)) 0

/-- One attempt of the regex `(\d+(\.\d+)?)/10` anchored at the head of
`l`: greedily take digits, optionally a dot plus digits, then require
the literal `/10`.  The group-1 text is returned in digit form as
(integer part, fraction numerator, fraction length).  Greedy `\d+`
never needs backtracking here because the character after a maximal
digit run is not a digit, while each continuation demands `.` or `/`. -/
def matchAt (l : List Char) : Option (Nat × Nat × Nat) :=
  match l.span Char.isDigit with
  | ([], _) => none
  | (d, '.' :: r2) =>
    match r2.span Char.isDigit with
    | ([], _) => none
    | (e, r3) =>
      if r3.take 3 = ['/', '1', '0'] then
        some (natOfDigits d, natOfDigits e, e.length)
      else none
  | (d, rest) =>
    if rest.take 3 = ['/', '1', '0'] then some (natOfDigits d, 0, 0) else none

/-- Embeds `re.search`: try the pattern at each position, leftmost first. -/
def searchScore : List Char → Option (Nat × Nat × Nat)
  | [] => none
  | c :: cs =>
    match matchAt (c :: cs) with
    | some q => some q
    | none => searchScore cs

/-- Embeds `float(match.group(1))`: numeric value of the matched digits. -/
def scoreVal : Nat × Nat × Nat → ℚ
  | (d, e, k) => (d : ℚ) + (e : ℚ) / (10 : ℚ) ^ k

/-- Embeds `_extract_score`: first `<number>/10` occurrence, else default 5.0. -/
def extract_score (content : List Char) : ℚ :=
  match searchScore content with
  | some t => scoreVal t
  | none => 5

/-- Python whitespace characters stripped by `str.strip()`. -/
def pySpace (c : Char) : Bool :=
  c = ' ' || c = '\t' || c = '\n' || c = '\r' || c = '\x0b' || c = '\x0c'

/-- Python `str.strip(chars)`: drop characters satisfying `p` from both
ends. -/
def stripWith (p : Char → Bool) (l : List Char) : List Char :=
  ((l.dropWhile p).reverse.dropWhile p).reverse

/-- Python whitespace strip of a line, both ends. -/
def pyStrip (l : List Char) : List Char :=
  stripWith pySpace l

/-- Python strip with the dash-and-space set: drop `-` and space
characters from both ends of the line. -/
def stripDashSpace (l : List Char) : List Char :=
  stripWith (fun c => c = '-' || c = ' ') l

/-- Python startswith check for a leading dash. -/
def startsWithDash : List Char → Bool
  | '-' :: _ => true
  | _ => false

/-- Embeds `_extract_suggestions`: keep the lines whose stripped form starts
with a dash, clean each by stripping dash-and-space then whitespace,
and take the first 5. -/
def extract_suggestions (content : List Char) : List (List Char) :=
  (((splitLines content).filter fun l => startsWithDash (pyStrip l)).map
    fun l => pyStrip (stripDashSpace l)).take 5

/-- The `ComplexityScore` dataclass. -/
structure ComplexityScore where
  score : ℚ
  metrics : StaticMetrics
  suggestions : List (List Char)
  suitable_for_beginner : Bool
deriving DecidableEq

/-- The pure core of `analyze_file`: given the source text, the outcome
of `ast.parse` and the reply text of the model, build the report.  File
reading and the network call are the two abstracted inputs. -/
def analyzeCore (code : List Char) (parse : Option PyTree)
    (aiContent : List Char) : ComplexityScore :=
  let static_metrics := static_analysis code parse
  let ai_score := extract_score aiContent
  let final_score := calculate_final_score static_metrics ai_score
  { score := final_score
    metrics := static_metrics
    suggestions := extract_suggestions aiContent
    suitable_for_beginner := decide (final_score ≤ 4) }

/-!
Embedding of `IssueDifficultyClassifier` (`issue_classifier.py`).  The
TensorFlow model is an external artifact; what `predict` receives from
`self.model.predict` is one row of the network output, whose final
layer is a dense layer of width 4 with softmax activation, i.e. a
probability vector
over the four classes.  We model that row as a function `Fin 4 → ℚ` and
keep the softmax guarantee (entries nonnegative, summing to 1) as an
explicit hypothesis in the theorems.  Tokenization only affects which
row the model produces, so it is absorbed into that abstraction.
-/

/-- The class-label list `DIFFICULTY_LEVELS`: beginner, intermediate,
advanced, expert. -/
def DIFFICULTY_LEVELS : List String :=
  ["beginner", "intermediate", "advanced", "expert"]

/-- `np.argmax` over a 4-vector: index of the maximum, first occurrence
winning ties (the running best is replaced only on strict increase). -/
def argmax4 (p : Fin 4 → ℚ) : Fin 4 :=
  let b1 : Fin 4 := if p 0 < p 1 then 1 else 0
  let b2 : Fin 4 := if p b1 < p 2 then 2 else b1
  if p b2 < p 3 then 3 else b2

/-- A softmax output row: nonnegative entries summing to 1. -/
def IsProbVec (p : Fin 4 → ℚ) : Prop :=
  (∀ i, 0 ≤ p i) ∧ (∑ i, p i) = 1

/-- The pure tail of `IssueDifficultyClassifier.predict`: from the model
output row, take the arg-max class, index `DIFFICULTY_LEVELS` with it,
and report the probability of that entry as the confidence. -/
def predict (p : Fin 4 → ℚ) : String × ℚ :=
  let c := argmax4 p
  (DIFFICULTY_LEVELS.get ⟨c.val, c.isLt⟩, p c)

/-- A single if-statement leaf node. -/
def ifLeaf : PyTree := .node .ifStmt []

/-- A module with three sibling if statements: cyclomatic complexity 4,
no functions or classes, hence static score 2. -/
def treeSmall : PyTree := .node .other [ifLeaf, ifLeaf, ifLeaf]

/-- A module with nine sibling if statements: cyclomatic complexity 10,
hence static score 5. -/
def treeLarge : PyTree := .node .other (List.replicate 9 ifLeaf)

/-- The function `roundHalfEven` is the identity on integers. -/
theorem roundHalfEven_intCast (n : ℤ) : roundHalfEven (n : ℚ) = n := by
  unfold roundHalfEven
  rw [Int.floor_intCast]
  norm_num

/-- Evaluation of `pyRound2` at an exact two-decimal value. -/
theorem pyRound2_of_mul_eq (q : ℚ) (n : ℤ) (h : q * 100 = (n : ℚ)) :
    pyRound2 q = (n : ℚ) / 100 := by
  unfold pyRound2
  rw [h, roundHalfEven_intCast]

/-- Rounding a nonnegative rational half-to-even stays nonnegative. -/
theorem roundHalfEven_nonneg (q : ℚ) (h : 0 ≤ q) : 0 ≤ roundHalfEven q := by
  have h0 : (0 : ℤ) ≤ ⌊q⌋ := Int.floor_nonneg.mpr h
  unfold roundHalfEven
  split_ifs <;> omega

/-- Rounding half-to-even never overshoots an integer upper bound. -/
theorem roundHalfEven_le_int (q : ℚ) (n : ℤ) (h : q ≤ (n : ℚ)) :
    roundHalfEven q ≤ n := by
  have hfl : ⌊q⌋ ≤ n := by
    have h2 := Int.floor_le_floor h
    rwa [Int.floor_intCast] at h2
  unfold roundHalfEven
  split_ifs with h1 h2 h3
  · exact hfl
  · have hq : (⌊q⌋ : ℚ) < q := by linarith
    have hlt : (⌊q⌋ : ℚ) < (n : ℚ) := lt_of_lt_of_le hq h
    have : ⌊q⌋ < n := by exact_mod_cast hlt
    omega
  · exact hfl
  · have hhalf : (1 : ℚ) / 2 ≤ q - ⌊q⌋ := le_of_not_lt h1
    have hq : (⌊q⌋ : ℚ) < q := by linarith
    have hlt : (⌊q⌋ : ℚ) < (n : ℚ) := lt_of_lt_of_le hq h
    have : ⌊q⌋ < n := by exact_mod_cast hlt
    omega

/-- Two-decimal rounding of a nonnegative rational stays nonnegative. -/
theorem pyRound2_nonneg (q : ℚ) (h : 0 ≤ q) : 0 ≤ pyRound2 q := by
  unfold pyRound2
  have h100 : (0 : ℚ) ≤ q * 100 := by linarith
  have hr := roundHalfEven_nonneg _ h100
  have hr2 : (0 : ℚ) ≤ (roundHalfEven (q * 100) : ℚ) := by exact_mod_cast hr
  exact div_nonneg hr2 (by norm_num)

/-- Two-decimal rounding of a rational at most 10 stays at most 10. -/
theorem pyRound2_le_ten (q : ℚ) (h : q ≤ 10) : pyRound2 q ≤ 10 := by
  unfold pyRound2
  have h1000 : q * 100 ≤ ((1000 : ℤ) : ℚ) := by push_cast; linarith
  have hr := roundHalfEven_le_int _ _ h1000
  have hr2 : ((roundHalfEven (q * 100) : ℤ) : ℚ) ≤ 1000 := by exact_mod_cast hr
  linarith

/-- The static-derived score is nonnegative. -/
theorem static_score_nonneg (m : StaticMetrics) : 0 ≤ static_score m := by
  unfold static_score
  refine le_min (by norm_num) ?_
  positivity

/-- The static-derived score is clamped at 10. -/
theorem static_score_le_ten (m : StaticMetrics) : static_score m ≤ 10 := by
  unfold static_score
  exact min_le_left _ _

/-- Any matched score value is nonnegative. -/
theorem scoreVal_nonneg (t : Nat × Nat × Nat) : 0 ≤ scoreVal t := by
  rcases t with ⟨d, e, k⟩
  simp only [scoreVal]
  positivity

/-- The extracted model score is nonnegative (matched digit values are
nonnegative, and so is the default 5.0). -/
theorem extract_score_nonneg (content : List Char) : 0 ≤ extract_score content := by
  cases h : searchScore content with
  | none => rw [extract_score, h]; norm_num
  | some t => rw [extract_score, h]; exact scoreVal_nonneg t

/-- Python split at newlines always yields (number of newlines) + 1
pieces. -/
theorem splitLines_length (l : List Char) :
    (splitLines l).length = l.count '\n' + 1 := by
  induction l with
  | nil => simp [splitLines]
  | cons c rest ih =>
    by_cases hc : c = '\n'
    · subst hc
      simp [splitLines, ih, List.count_cons]
    · rw [splitLines]
      simp only [if_neg hc]
      cases hrest : splitLines rest with
      | nil => rw [hrest] at ih; simp at ih
      | cons l0 ls =>
        rw [hrest] at ih
        simp only [List.length_cons] at ih ⊢
        simp [List.count_cons, hc]
        omega

/-- A successful `searchScore` reports the leftmost position at which
the pattern matches: the match succeeds there and fails at every
earlier position. -/
theorem searchScore_some_first (s : List Char) (t : Nat × Nat × Nat)
    (h : searchScore s = some t) :
    ∃ i, matchAt (s.drop i) = some t ∧ ∀ j, j < i → matchAt (s.drop j) = none := by
  induction s with
  | nil => simp [searchScore] at h
  | cons c cs ih =>
    cases hm : matchAt (c :: cs) with
    | some q =>
      rw [searchScore, hm] at h
      refine ⟨0, ?_, by omega⟩
      simpa [hm] using h
    | none =>
      rw [searchScore, hm] at h
      obtain ⟨i, hi, hlt⟩ := ih h
      refine ⟨i + 1, hi, ?_⟩
      intro j hj
      cases j with
      | zero => exact hm
      | succ k => exact hlt k (by omega)

/-- C1: for every static metrics record and model score, the fused
final score returned by `_calculate_final_score` equals
round(s*0.4 + m*0.6, 2) where s = min(10, complexity*0.5 +
classCount*0.3 + functionCount*0.2); in particular fusing static 4.0
(metrics with complexity 8) with model 6.0 yields exactly 5.2. -/
theorem C1_fusion_formula :
    (∀ (m : StaticMetrics) (a : ℚ), calculate_final_score m a
        = pyRound2 (static_score m * (4 / 10) + a * (6 / 10))) ∧
    (∀ m : StaticMetrics, static_score m
        = min 10 ((m.complexity : ℚ) * (5 / 10) + (m.classes : ℚ) * (3 / 10)
          + (m.functions : ℚ) * (2 / 10))) ∧
    static_score ⟨1, 0, 0, 8⟩ = 4 ∧
    calculate_final_score ⟨1, 0, 0, 8⟩ 6 = 26 / 5 := by
  have hs : static_score ⟨1, 0, 0, 8⟩ = 4 := by unfold static_score; norm_num
  refine ⟨fun m a => rfl, fun m => rfl, hs, ?_⟩
  unfold calculate_final_score
  rw [hs, pyRound2_of_mul_eq _ 520 (by norm_num)]
  norm_num

/-- C2 counterexample: with unparseable source (static score 0) and a
model reply of "100/10", the extracted model score is not clamped, and
the final score is 60, far above 10 — refuting the claim that the
final score always lies in [0,10] because both fusion inputs are
clamped at 10. -/
theorem C2_counterexample :
    (analyzeCore [] none ("100/10".toList)).score = 60 ∧
    10 < (analyzeCore [] none ("100/10".toList)).score := by
  have h : (analyzeCore [] none ("100/10".toList)).score = 60 := by
    show calculate_final_score (static_analysis [] none)
      (extract_score ("100/10".toList)) = 60
    have he : extract_score ("100/10".toList) = 100 := by
      have hss : searchScore ("100/10".toList) = some (100, 0, 0) := by decide
      rw [extract_score, hss]
      norm_num [scoreVal]
    unfold calculate_final_score
    rw [he]
    have hs2 : static_score (static_analysis [] none) = 0 := by
      unfold static_analysis static_score
      norm_num
    rw [hs2, pyRound2_of_mul_eq _ 6000 (by norm_num)]
    norm_num
  exact ⟨h, by rw [h]; norm_num⟩

/-- C2 amended: the final score is always nonnegative, and it is at
most 10 whenever the extracted model score is at most 10; the static
input of the fusion is clamped at 10 by `_calculate_final_score`, but
the model score from `_extract_score` is not clamped. -/
theorem C2_score_bounds (code : List Char) (parse : Option PyTree)
    (content : List Char) :
    0 ≤ (analyzeCore code parse content).score ∧
    (extract_score content ≤ 10 → (analyzeCore code parse content).score ≤ 10) := by
  show 0 ≤ calculate_final_score (static_analysis code parse) (extract_score content) ∧ _
  unfold calculate_final_score
  have h1 := static_score_nonneg (static_analysis code parse)
  have h2 := extract_score_nonneg content
  have h3 := static_score_le_ten (static_analysis code parse)
  constructor
  · apply pyRound2_nonneg
    linarith
  · intro h10
    apply pyRound2_le_ten
    linarith

/-- Witness for C2: a parseable-free run with reply "5/10" satisfies
both bounds. -/
theorem C2_score_bounds_witness :
    0 ≤ (analyzeCore [] none ("5/10".toList)).score ∧
    (analyzeCore [] none ("5/10".toList)).score ≤ 10 :=
  ⟨(C2_score_bounds [] none ("5/10".toList)).1,
   (C2_score_bounds [] none ("5/10".toList)).2 (by
     have hss : searchScore ("5/10".toList) = some (5, 0, 0) := by decide
     rw [extract_score, hss]
     norm_num [scoreVal])⟩

/-- C3: the beginner-suitable flag of every analysis result is true if
and only if the fused final score is at most 4.0; a fused score of 2.6
gives true and a fused score of exactly 5.0 gives false. -/
theorem C3_beginner_flag :
    (∀ code parse content,
      ((analyzeCore code parse content).suitable_for_beginner = true ↔
        (analyzeCore code parse content).score ≤ 4)) ∧
    (analyzeCore [] (some treeSmall) ("3/10".toList)).score = 13 / 5 ∧
    (analyzeCore [] (some treeSmall) ("3/10".toList)).suitable_for_beginner = true ∧
    (analyzeCore [] (some treeLarge) ("5/10".toList)).score = 5 ∧
    (analyzeCore [] (some treeLarge) ("5/10".toList)).suitable_for_beginner = false := by
  have hiff : ∀ code parse content,
      ((analyzeCore code parse content).suitable_for_beginner = true ↔
        (analyzeCore code parse content).score ≤ 4) := by
    intro code parse content
    have hrfl : (analyzeCore code parse content).suitable_for_beginner
        = decide ((analyzeCore code parse content).score ≤ 4) := rfl
    rw [hrfl, decide_eq_true_eq]
  have hsc1 : (analyzeCore [] (some treeSmall) ("3/10".toList)).score = 13 / 5 := by
    show calculate_final_score (static_analysis [] (some treeSmall))
      (extract_score ("3/10".toList)) = 13 / 5
    have hm : static_analysis [] (some treeSmall) = ⟨1, 0, 0, 4⟩ := by decide
    have he : extract_score ("3/10".toList) = 3 := by
      have hss : searchScore ("3/10".toList) = some (3, 0, 0) := by decide
      rw [extract_score, hss]
      norm_num [scoreVal]
    rw [hm, he]
    unfold calculate_final_score
    have hs : static_score ⟨1, 0, 0, 4⟩ = 2 := by unfold static_score; norm_num
    rw [hs, pyRound2_of_mul_eq _ 260 (by norm_num)]
    norm_num
  have hsc2 : (analyzeCore [] (some treeLarge) ("5/10".toList)).score = 5 := by
    show calculate_final_score (static_analysis [] (some treeLarge))
      (extract_score ("5/10".toList)) = 5
    have hm : static_analysis [] (some treeLarge) = ⟨1, 0, 0, 10⟩ := by decide
    have he : extract_score ("5/10".toList) = 5 := by
      have hss : searchScore ("5/10".toList) = some (5, 0, 0) := by decide
      rw [extract_score, hss]
      norm_num [scoreVal]
    rw [hm, he]
    unfold calculate_final_score
    have hs : static_score ⟨1, 0, 0, 10⟩ = 5 := by unfold static_score; norm_num
    rw [hs, pyRound2_of_mul_eq _ 500 (by norm_num)]
    norm_num
  refine ⟨hiff, hsc1, ?_, hsc2, ?_⟩
  · rw [hiff, hsc1]
    norm_num
  · rw [Bool.eq_false_iff]
    intro hcontra
    rw [hiff, hsc2] at hcontra
    norm_num at hcontra

/-- C4: for every source text that fails to parse, `_static_analysis`
returns the all-zero metrics record and stays total (it never raises),
so `analyze_file` still produces a report whose metrics are all zero. -/
theorem C4_unparseable_zero_metrics (code : List Char) (content : List Char) :
    static_analysis code none = ⟨0, 0, 0, 0⟩ ∧
    (analyzeCore code none content).metrics = ⟨0, 0, 0, 0⟩ :=
  ⟨rfl, rfl⟩

/-- C5: `_cyclomatic_complexity` returns 1 plus the number of
conditional, loop and exception-handler nodes of the tree, each counted
once regardless of nesting depth; hence the result is at least 1 and
equals 1 when there are no branch nodes; a nested arrangement and a
flat arrangement of the same branch nodes give the same value. -/
theorem C5_cyclomatic_spec :
    (∀ t, cyclomatic_complexity t = 1 + countIf isBranch t) ∧
    (∀ t, 1 ≤ cyclomatic_complexity t) ∧
    (∀ t, countIf isBranch t = 0 → cyclomatic_complexity t = 1) ∧
    cyclomatic_complexity
        (.node .other [.node .ifStmt [.node .whileStmt [.node .forStmt []]]])
      = cyclomatic_complexity
        (.node .other [.node .ifStmt [], .node .whileStmt [], .node .forStmt []]) := by
  refine ⟨fun t => rfl, fun t => ?_, fun t h => ?_, by decide⟩
  · rw [cyclomatic_complexity]
    omega
  · rw [cyclomatic_complexity, h]

/-- Witness for C5: the branch-free one-node module has zero branch
nodes and cyclomatic complexity exactly 1. -/
theorem C5_cyclomatic_spec_witness :
    cyclomatic_complexity (.node .other []) = 1 :=
  C5_cyclomatic_spec.2.2.1 (.node .other []) (by decide)

/-- C6: for every metrics record the static-derived score equals
min(10, complexity*0.5 + classCount*0.3 + functionCount*0.2), hence it
never exceeds 10; a complexity of 100 gives raw 50, clamped to 10. -/
theorem C6_static_score_clamped :
    (∀ m : StaticMetrics, static_score m
        = min 10 ((m.complexity : ℚ) * (5 / 10) + (m.classes : ℚ) * (3 / 10)
          + (m.functions : ℚ) * (2 / 10))) ∧
    (∀ m, static_score m ≤ 10) ∧
    static_score ⟨0, 0, 0, 100⟩ = 10 := by
  refine ⟨fun m => rfl, static_score_le_ten, ?_⟩
  unfold static_score
  norm_num

/-- C7: `_extract_score` returns the numeric value of the leftmost
occurrence of the <number>/10 pattern (the match succeeds at that
position and fails at every earlier one) and returns the default 5.0
when no position matches; the example reply yields 7.5. -/
theorem C7_extract_score_spec :
    (∀ s, searchScore s = none → extract_score s = 5) ∧
    (∀ s t, searchScore s = some t →
      extract_score s = scoreVal t ∧
      ∃ i, matchAt (s.drop i) = some t ∧ ∀ j, j < i → matchAt (s.drop j) = none) ∧
    extract_score ("Score: 7.5/10\n- Use better names\n- Add tests".toList)
      = 15 / 2 := by
  refine ⟨?_, ?_, ?_⟩
  · intro s h
    rw [extract_score, h]
  · intro s t h
    exact ⟨by rw [extract_score, h], searchScore_some_first s t h⟩
  · have h : searchScore ("Score: 7.5/10\n- Use better names\n- Add tests".toList)
        = some (7, 5, 1) := by decide
    rw [extract_score, h]
    norm_num [scoreVal]

/-- Witness for C7: a reply with no /10 pattern defaults to 5.0, and a
reply that is exactly 3/10 matches at position 0 with value 3. -/
theorem C7_extract_score_spec_witness :
    extract_score ("no score here".toList) = 5 ∧
    (extract_score ("3/10".toList) = scoreVal (3, 0, 0) ∧
      ∃ i, matchAt (("3/10".toList).drop i) = some (3, 0, 0) ∧
        ∀ j, j < i → matchAt (("3/10".toList).drop j) = none) :=
  ⟨C7_extract_score_spec.1 ("no score here".toList) (by decide),
   C7_extract_score_spec.2.1 ("3/10".toList) (3, 0, 0) (by decide)⟩

/-- C8: `_extract_suggestions` returns exactly the dash-marked lines in
their original order, each cleaned of the marker and surrounding
whitespace, and the result never has more than 5 entries; the example
reply yields its two suggestion lines. -/
theorem C8_extract_suggestions_spec :
    (∀ content, extract_suggestions content
        = (((splitLines content).filter fun l => startsWithDash (pyStrip l)).map
            fun l => pyStrip (stripDashSpace l)).take 5) ∧
    (∀ content, (extract_suggestions content).length ≤ 5) ∧
    extract_suggestions ("Score: 7.5/10\n- Use better names\n- Add tests".toList)
      = ["Use better names".toList, "Add tests".toList] := by
  refine ⟨fun content => rfl, fun content => ?_, by decide⟩
  rw [extract_suggestions, List.length_take]
  exact min_le_left _ _

/-- C9: for every model output row (the softmax probabilities, covering
every input text including the empty string), `predict` returns a tier
drawn from the four fixed difficulty levels — the arg-max class — and
a confidence lying in [0,1]. -/
theorem C9_predict_spec (p : Fin 4 → ℚ) (h : IsProbVec p) :
    (predict p).1 ∈ DIFFICULTY_LEVELS ∧
    0 ≤ (predict p).2 ∧ (predict p).2 ≤ 1 := by
  obtain ⟨hpos, hsum⟩ := h
  refine ⟨List.get_mem _ _ _, hpos _, ?_⟩
  have hle := Finset.single_le_sum (f := p) (fun i _ => hpos i)
    (Finset.mem_univ (argmax4 p))
  rw [hsum] at hle
  exact hle

/-- Witness for C9: the uniform softmax row is a probability vector and
yields a tier in the list with confidence 1/4 in [0,1]. -/
theorem C9_predict_spec_witness :
    (predict fun _ => (1 : ℚ) / 4).1 ∈ DIFFICULTY_LEVELS ∧
    0 ≤ (predict fun _ => (1 : ℚ) / 4).2 ∧ (predict fun _ => (1 : ℚ) / 4).2 ≤ 1 :=
  C9_predict_spec (fun _ => (1 : ℚ) / 4)
    ⟨fun i => by norm_num, by rw [Fin.sum_univ_four]; norm_num⟩

/-- C10: the empty source parses (to a module node with no children)
and gets metrics {1, 0, 0, 1}, not the all-zero record; for every
parseable source the reported line count is 1 plus the number of
newline characters, hence at least 1, and the complexity is at least 1,
so an all-zero record arises only from unparseable input. -/
theorem C10_empty_source_metrics :
    static_analysis [] (some (.node .other [])) = ⟨1, 0, 0, 1⟩ ∧
    (∀ code (t : PyTree), (static_analysis code (some t)).lines_of_code
        = code.count '\n' + 1) ∧
    (∀ code (t : PyTree), 1 ≤ (static_analysis code (some t)).lines_of_code) ∧
    (∀ code (t : PyTree), 1 ≤ (static_analysis code (some t)).complexity) := by
  have hloc : ∀ code (t : PyTree), (static_analysis code (some t)).lines_of_code
      = code.count '\n' + 1 := by
    intro code t
    show (splitLines code).length = code.count '\n' + 1
    exact splitLines_length code
  refine ⟨by decide, hloc, fun code t => ?_, fun code t => ?_⟩
  · rw [hloc]
    omega
  · show 1 ≤ cyclomatic_complexity t
    rw [cyclomatic_complexity]
    omega
